import Mathlib

/-!
Verification of the session-state persistence mechanism of the
checkly-storagestate repository: the Producer (`storageState.spec.ts`)
captures a browser storage snapshot, serializes it with JSON.stringify and
PUTs it into the remote variable slot `STORAGE_STATE`; the Consumer
(`retrieveStorageState.ts` plus the beforeEach of the crud-article spec)
GETs the slot and reinjects the result into a fresh session's local storage.

The data model (`StorageState` below) is the browser engine's storage-state
snapshot format: a `cookies` array and an `origins` array, each origin
holding a `localStorage` array of name/value pairs.  Serialization is
modelled by a JSON renderer faithful to JSON.stringify on this shape, and
deserialization by a prefix-consuming parser that inverts it.
-/

namespace ChecklyStorageState

/-- One local-storage entry of an origin: a name/value string pair,
as produced by the browser engine's storageState snapshot. -/
structure LocalStorageEntry where
  name : String
  value : String
deriving DecidableEq, Repr

/-- One origin of the snapshot: the origin URL and its local-storage entries. -/
structure OriginState where
  origin : String
  localStorage : List LocalStorageEntry
deriving DecidableEq, Repr

/-- A cookie of the snapshot.  The snapshot is treated as an opaque
serializable blob by the repository (no claim touches cookie internals);
the scalar cookie attributes beyond these four string fields are abstracted. -/
structure Cookie where
  name : String
  value : String
  domain : String
  path : String
deriving DecidableEq, Repr

/-- The session snapshot returned by `page.context().storageState()`:
cookies plus per-origin local storage. -/
structure StorageState where
  cookies : List Cookie
  origins : List OriginState
deriving DecidableEq, Repr

/-! ## JSON serialization (model of JSON.stringify on the snapshot shape)

Rendering works on `List Char` in continuation style: every renderer takes
the list of characters that follows it, so rendered output is already in
right-nested cons/append form and round-trip proofs need no reassociation. -/

/-- JSON string escaping of one character, as JSON.stringify performs it:
quote, backslash and the common control characters get a backslash escape. -/
def escapeChar (c : Char) : List Char :=
  if c = '"' then ['\\', '"']
  else if c = '\\' then ['\\', '\\']
  else if c = '\n' then ['\\', 'n']
  else if c = '\t' then ['\\', 't']
  else if c = '\r' then ['\\', 'r']
  else [c]

/-- JSON string escaping of a character list. -/
def escapeChars : List Char → List Char
  | [] => []
  | c :: cs => escapeChar c ++ escapeChars cs

/-- A JSON string literal: opening quote, escaped content, closing quote. -/
def renderString (s : String) : List Char :=
  '"' :: (escapeChars s.data ++ ['"'])

/-- Reversal of `escapeChar`: the character denoted by a backslash escape. -/
def unescape (e : Char) : Option Char :=
  if e = '"' then some '"'
  else if e = '\\' then some '\\'
  else if e = '/' then some '/'
  else if e = 'n' then some '\n'
  else if e = 't' then some '\t'
  else if e = 'r' then some '\r'
  else none

/-- Parse the body of a JSON string literal up to the closing quote,
returning the unescaped content and the unconsumed tail. -/
def parseStringChars : List Char → Option (List Char × List Char)
  | [] => none
  | c :: rest =>
    if c = '"' then some ([], rest)
    else if c = '\\' then
      match rest with
      | [] => none
      | e :: rest2 =>
        match unescape e, parseStringChars rest2 with
        | some c2, some (s, r) => some (c2 :: s, r)
        | _, _ => none
    else
      match parseStringChars rest with
      | some (s, r) => some (c :: s, r)
      | none => none

/-- Parse a JSON string literal off the front of the input. -/
def parseString (input : List Char) : Option (String × List Char) :=
  match input with
  | [] => none
  | c :: rest =>
    if c = '"' then
      match parseStringChars rest with
      | some (cs, r) => some (String.mk cs, r)
      | none => none
    else none

theorem parseStringChars_cons (c : Char) (rest : List Char) :
    parseStringChars (c :: rest) =
      if c = '"' then some ([], rest)
      else if c = '\\' then
        (match rest with
        | [] => none
        | e :: rest2 =>
          match unescape e, parseStringChars rest2 with
          | some c2, some (s, r) => some (c2 :: s, r)
          | _, _ => none)
      else
        (match parseStringChars rest with
        | some (s, r) => some (c :: s, r)
        | none => none) := by
  rw [parseStringChars.eq_def]

theorem parseString_cons (c : Char) (rest : List Char) :
    parseString (c :: rest) =
      if c = '"' then
        (match parseStringChars rest with
        | some (cs, r) => some (String.mk cs, r)
        | none => none)
      else none := by
  rw [parseString.eq_def]

theorem parseStringChars_cons_plain (c : Char) (h1 : ¬ c = '"') (h2 : ¬ c = '\\')
    (rest : List Char) (s r : List Char) (H : parseStringChars rest = some (s, r)) :
    parseStringChars (c :: rest) = some (c :: s, r) := by
  rw [parseStringChars_cons, if_neg h1, if_neg h2, H]

theorem parseStringChars_cons_escape (e c2 : Char) (He : unescape e = some c2)
    (rest : List Char) (s r : List Char) (H : parseStringChars rest = some (s, r)) :
    parseStringChars ('\\' :: e :: rest) = some (c2 :: s, r) := by
  rw [parseStringChars_cons, if_neg (by decide), if_pos rfl]
  show (match unescape e, parseStringChars rest with
    | some c2, some (s, r) => some (c2 :: s, r)
    | _, _ => none) = some (c2 :: s, r)
  rw [He, H]

/-- Escaped content followed by a closing quote parses back to the content. -/
theorem parseStringChars_escape (cs rest : List Char) :
    parseStringChars (escapeChars cs ++ '"' :: rest) = some (cs, rest) := by
  induction cs with
  | nil =>
    rw [escapeChars, List.nil_append, parseStringChars_cons, if_pos rfl]
  | cons c cs ih =>
    rw [escapeChars, List.append_assoc]
    by_cases h1 : c = '"'
    · subst h1
      rw [escapeChar, if_pos rfl]
      exact parseStringChars_cons_escape _ _ (by decide) _ _ _ ih
    by_cases h2 : c = '\\'
    · subst h2
      rw [escapeChar, if_neg (by decide), if_pos rfl]
      exact parseStringChars_cons_escape _ _ (by decide) _ _ _ ih
    by_cases h3 : c = '\n'
    · subst h3
      rw [escapeChar, if_neg (by decide), if_neg (by decide), if_pos rfl]
      exact parseStringChars_cons_escape _ _ (by decide) _ _ _ ih
    by_cases h4 : c = '\t'
    · subst h4
      rw [escapeChar, if_neg (by decide), if_neg (by decide), if_neg (by decide), if_pos rfl]
      exact parseStringChars_cons_escape _ _ (by decide) _ _ _ ih
    by_cases h5 : c = '\r'
    · subst h5
      rw [escapeChar, if_neg (by decide), if_neg (by decide), if_neg (by decide),
        if_neg (by decide), if_pos rfl]
      exact parseStringChars_cons_escape _ _ (by decide) _ _ _ ih
    · rw [escapeChar, if_neg h1, if_neg h2, if_neg h3, if_neg h4, if_neg h5,
        List.singleton_append]
      exact parseStringChars_cons_plain _ h1 h2 _ _ _ ih

/-- Round-trip for JSON string literals: rendering then parsing returns the
string and the unconsumed tail. -/
theorem parseString_render (s : String) (rest : List Char) :
    parseString (renderString s ++ rest) = some (s, rest) := by
  cases s with
  | mk cs =>
    show parseString ('"' :: (escapeChars cs ++ ['"']) ++ rest) = _
    rw [List.cons_append, List.append_assoc, List.singleton_append]
    rw [parseString_cons, if_pos rfl, parseStringChars_escape]

/-! ## JSON arrays and objects -/

/-- Render a nonempty comma-separated sequence of items (continuation style). -/
def renderSep (f : α → List Char → List Char) : List α → List Char → List Char
  | [], rest => rest
  | [x], rest => f x rest
  | x :: y :: xs, rest => f x (',' :: renderSep f (y :: xs) rest)

/-- Render a JSON array of items (continuation style). -/
def renderArray (f : α → List Char → List Char) (xs : List α) (rest : List Char) : List Char :=
  match xs with
  | [] => '[' :: ']' :: rest
  | x :: xs2 => '[' :: renderSep f (x :: xs2) (']' :: rest)

/-- Parse a nonempty comma-separated item sequence terminated by a closing
bracket.  `fuel` bounds the number of items; any fuel at least the item count
suffices on well-formed input. -/
def parseItems (p : List Char → Option (α × List Char)) :
    Nat → List Char → Option (List α × List Char)
  | 0, _ => none
  | fuel + 1, input =>
    match p input with
    | none => none
    | some (x, r) =>
      match r with
      | [] => none
      | c :: r2 =>
        if c = ',' then
          match parseItems p fuel r2 with
          | none => none
          | some (xs, r3) => some (x :: xs, r3)
        else if c = ']' then some ([x], r2)
        else none

/-- Parse a JSON array off the front of the input. -/
def parseArray (p : List Char → Option (α × List Char)) (input : List Char) :
    Option (List α × List Char) :=
  match input with
  | [] => none
  | c :: r =>
    if c = '[' then
      match r with
      | [] => none
      | c2 :: r2 => if c2 = ']' then some ([], r2) else parseItems p (c2 :: r2).length (c2 :: r2)
    else none

/-- Parse a fixed JSON object key followed by a colon, returning the tail. -/
def parseKeyColon (k : String) (input : List Char) : Option (List Char) :=
  match parseString input with
  | none => none
  | some (s, r) =>
    match r with
    | [] => none
    | c :: r2 => if s = k then if c = ':' then some r2 else none else none

theorem parseItems_succ (p : List Char → Option (α × List Char))
    (fuel : Nat) (input : List Char) :
    parseItems p (fuel + 1) input =
      match p input with
      | none => none
      | some (x, r) =>
        match r with
        | [] => none
        | c :: r2 =>
          if c = ',' then
            match parseItems p fuel r2 with
            | none => none
            | some (xs, r3) => some (x :: xs, r3)
          else if c = ']' then some ([x], r2)
          else none := by
  rw [parseItems.eq_def]

theorem parseKeyColon_render (k : String) (rest : List Char) :
    parseKeyColon k (renderString k ++ ':' :: rest) = some rest := by
  rw [parseKeyColon.eq_def, parseString_render]
  show (if k = k then if ':' = ':' then some rest else none else none) = some rest
  rw [if_pos rfl, if_pos rfl]

/-- Round-trip for nonempty rendered item sequences, by induction on the
items, with any sufficient fuel. -/
theorem parseItems_renderSep (p : List Char → Option (α × List Char))
    (f : α → List Char → List Char)
    (Hp : ∀ (x : α) (rest : List Char), p (f x rest) = some (x, rest)) :
    ∀ (xs : List α) (x : α) (rest : List Char) (fuel : Nat), xs.length < fuel →
      parseItems p fuel (renderSep f (x :: xs) (']' :: rest)) = some (x :: xs, rest) := by
  intro xs
  induction xs with
  | nil =>
    intro x rest fuel hfuel
    cases fuel with
    | zero => simp at hfuel
    | succ n =>
      rw [renderSep, parseItems_succ, Hp]
      simp
  | cons y ys ih =>
    intro x rest fuel hfuel
    cases fuel with
    | zero => simp at hfuel
    | succ n =>
      have h2 : ys.length < n := by
        simp only [List.length_cons] at hfuel
        omega
      rw [renderSep, parseItems_succ, Hp]
      simp [ih y rest n h2]

/-- A rendered nonempty item sequence is strictly longer than the item count,
provided each rendered item strictly lengthens its continuation. -/
theorem renderSep_length (f : α → List Char → List Char)
    (Hlen : ∀ (x : α) (rest : List Char), rest.length < (f x rest).length) :
    ∀ (xs : List α) (x : α) (rest : List Char),
      (x :: xs).length < (renderSep f (x :: xs) (']' :: rest)).length := by
  intro xs
  induction xs with
  | nil =>
    intro x rest
    rw [renderSep]
    have := Hlen x (']' :: rest)
    simp only [List.length_cons, List.length_nil] at *
    omega
  | cons y ys ih =>
    intro x rest
    rw [renderSep]
    have h1 := Hlen x (',' :: renderSep f (y :: ys) (']' :: rest))
    have h2 := ih y rest
    simp only [List.length_cons, List.length_nil] at *
    omega

/-- Round-trip for rendered JSON arrays: parsing the rendered array returns
the item list and the unconsumed tail.  `Hhead` records that every rendered
item starts with an opening brace (true of all object renderers below), so a
nonempty rendered array is never mistaken for the empty one. -/
theorem parseArray_render (p : List Char → Option (α × List Char))
    (f : α → List Char → List Char)
    (Hp : ∀ (x : α) (rest : List Char), p (f x rest) = some (x, rest))
    (Hhead : ∀ (x : α) (rest : List Char), ∃ t, f x rest = '{' :: t)
    (Hlen : ∀ (x : α) (rest : List Char), rest.length < (f x rest).length) :
    ∀ (xs : List α) (rest : List Char),
      parseArray p (renderArray f xs rest) = some (xs, rest) := by
  intro xs rest
  cases xs with
  | nil =>
    rw [renderArray, parseArray.eq_def]
    simp
  | cons x xs2 =>
    have hsep : ∃ t, renderSep f (x :: xs2) (']' :: rest) = '{' :: t := by
      cases xs2 with
      | nil => rw [renderSep]; exact Hhead x (']' :: rest)
      | cons y ys => rw [renderSep]; exact Hhead x _
    obtain ⟨t, ht⟩ := hsep
    have hlen : (x :: xs2).length < ('{' :: t).length := by
      rw [← ht]
      exact renderSep_length f Hlen xs2 x rest
    rw [renderArray, parseArray.eq_def, ht]
    show (if '[' = '[' then
        (match ('{' : Char) :: t with
        | [] => none
        | c2 :: r2 => if c2 = ']' then some ([], r2) else parseItems p (c2 :: r2).length (c2 :: r2))
      else none) = some (x :: xs2, rest)
    rw [if_pos rfl]
    show (if ('{' : Char) = ']' then some ([], t)
      else parseItems p (('{' : Char) :: t).length (('{' : Char) :: t)) = some (x :: xs2, rest)
    rw [if_neg (by decide), ← ht]
    have hlen2 : xs2.length < (renderSep f (x :: xs2) (']' :: rest)).length := by
      rw [ht]
      simp only [List.length_cons] at hlen ⊢
      omega
    exact parseItems_renderSep p f Hp xs2 x rest _ hlen2

/-! ## The snapshot serialization format

`stringifyStorageState` is the model of `JSON.stringify(storage)` as the
Producer applies it in `storageState.spec.ts`: field order follows the
browser engine's snapshot object (cookies, then origins; per origin the
origin URL, then its localStorage entries; per entry name, then value).
`parseStorageState` is the model of `JSON.parse` composed with reading those
same fields, i.e. the deserialization direction of the spec's round-trip. -/

/-- Render one local-storage entry as a JSON object (continuation style). -/
def renderEntry (e : LocalStorageEntry) (rest : List Char) : List Char :=
  '{' :: (renderString "name" ++ ':' :: renderString e.name ++
    ',' :: renderString "value" ++ ':' :: renderString e.value ++ '}' :: rest)

/-- Render one cookie as a JSON object (continuation style). -/
def renderCookie (c : Cookie) (rest : List Char) : List Char :=
  '{' :: (renderString "name" ++ ':' :: renderString c.name ++
    ',' :: renderString "value" ++ ':' :: renderString c.value ++
    ',' :: renderString "domain" ++ ':' :: renderString c.domain ++
    ',' :: renderString "path" ++ ':' :: renderString c.path ++ '}' :: rest)

/-- Render one origin as a JSON object (continuation style). -/
def renderOrigin (o : OriginState) (rest : List Char) : List Char :=
  '{' :: (renderString "origin" ++ ':' :: renderString o.origin ++
    ',' :: renderString "localStorage" ++ ':' ::
      renderArray renderEntry o.localStorage ('}' :: rest))

/-- Model of `JSON.stringify` on a session snapshot, as the Producer applies
it before the remote write. -/
def stringifyStorageState (s : StorageState) : String :=
  String.mk ('{' :: (renderString "cookies" ++ ':' ::
    renderArray renderCookie s.cookies
      (',' :: renderString "origins" ++ ':' ::
        renderArray renderOrigin s.origins ('}' :: []))))

/-- Parse one local-storage entry object. -/
def parseEntry (input : List Char) : Option (LocalStorageEntry × List Char) :=
  match input with
  | [] => none
  | c :: r0 =>
    if c = '{' then
      match parseKeyColon "name" r0 with
      | none => none
      | some r1 =>
        match parseString r1 with
        | none => none
        | some (n, r2) =>
          match r2 with
          | [] => none
          | c2 :: r3 =>
            if c2 = ',' then
              match parseKeyColon "value" r3 with
              | none => none
              | some r4 =>
                match parseString r4 with
                | none => none
                | some (v, r5) =>
                  match r5 with
                  | [] => none
                  | c3 :: r6 =>
                    if c3 = '}' then some ({ name := n, value := v }, r6) else none
            else none
    else none

/-- Parse one cookie object. -/
def parseCookie (input : List Char) : Option (Cookie × List Char) :=
  match input with
  | [] => none
  | c :: r0 =>
    if c = '{' then
      match parseKeyColon "name" r0 with
      | none => none
      | some r1 =>
        match parseString r1 with
        | none => none
        | some (n, r2) =>
          match r2 with
          | [] => none
          | c2 :: r3 =>
            if c2 = ',' then
              match parseKeyColon "value" r3 with
              | none => none
              | some r4 =>
                match parseString r4 with
                | none => none
                | some (v, r5) =>
                  match r5 with
                  | [] => none
                  | c3 :: r6 =>
                    if c3 = ',' then
                      match parseKeyColon "domain" r6 with
                      | none => none
                      | some r7 =>
                        match parseString r7 with
                        | none => none
                        | some (d, r8) =>
                          match r8 with
                          | [] => none
                          | c4 :: r9 =>
                            if c4 = ',' then
                              match parseKeyColon "path" r9 with
                              | none => none
                              | some r10 =>
                                match parseString r10 with
                                | none => none
                                | some (pa, r11) =>
                                  match r11 with
                                  | [] => none
                                  | c5 :: r12 =>
                                    if c5 = '}' then
                                      some (Cookie.mk n v d pa, r12)
                                    else none
                            else none
                    else none
            else none
    else none

/-- Parse one origin object, including its localStorage entry array. -/
def parseOrigin (input : List Char) : Option (OriginState × List Char) :=
  match input with
  | [] => none
  | c :: r0 =>
    if c = '{' then
      match parseKeyColon "origin" r0 with
      | none => none
      | some r1 =>
        match parseString r1 with
        | none => none
        | some (og, r2) =>
          match r2 with
          | [] => none
          | c2 :: r3 =>
            if c2 = ',' then
              match parseKeyColon "localStorage" r3 with
              | none => none
              | some r4 =>
                match parseArray parseEntry r4 with
                | none => none
                | some (es, r5) =>
                  match r5 with
                  | [] => none
                  | c3 :: r6 =>
                    if c3 = '}' then some ({ origin := og, localStorage := es }, r6)
                    else none
            else none
    else none

/-- Model of `JSON.parse` composed with reading the snapshot fields: the
deserialization direction of the spec's round-trip property. -/
def parseStorageState (s : String) : Option StorageState :=
  match s.data with
  | [] => none
  | c :: r0 =>
    if c = '{' then
      match parseKeyColon "cookies" r0 with
      | none => none
      | some r1 =>
        match parseArray parseCookie r1 with
        | none => none
        | some (cs, r2) =>
          match r2 with
          | [] => none
          | c2 :: r3 =>
            if c2 = ',' then
              match parseKeyColon "origins" r3 with
              | none => none
              | some r4 =>
                match parseArray parseOrigin r4 with
                | none => none
                | some (os, r5) =>
                  match r5 with
                  | [c3] => if c3 = '}' then some { cookies := cs, origins := os } else none
                  | _ => none
            else none
    else none

/-! ## Serialization round-trip -/

theorem parseEntry_render (e : LocalStorageEntry) (rest : List Char) :
    parseEntry (renderEntry e rest) = some (e, rest) := by
  simp [renderEntry, parseEntry.eq_def, List.cons_append, List.append_assoc,
    parseKeyColon_render, parseString_render]

theorem parseCookie_render (c : Cookie) (rest : List Char) :
    parseCookie (renderCookie c rest) = some (c, rest) := by
  simp [renderCookie, parseCookie.eq_def, List.cons_append, List.append_assoc,
    parseKeyColon_render, parseString_render]

theorem renderEntry_head (e : LocalStorageEntry) (rest : List Char) :
    ∃ t, renderEntry e rest = '{' :: t :=
  ⟨_, rfl⟩

theorem renderCookie_head (c : Cookie) (rest : List Char) :
    ∃ t, renderCookie c rest = '{' :: t :=
  ⟨_, rfl⟩

theorem renderOrigin_head (o : OriginState) (rest : List Char) :
    ∃ t, renderOrigin o rest = '{' :: t :=
  ⟨_, rfl⟩

theorem renderEntry_length (e : LocalStorageEntry) (rest : List Char) :
    rest.length < (renderEntry e rest).length := by
  simp only [renderEntry, List.length_cons, List.length_append]
  omega

theorem renderCookie_length (c : Cookie) (rest : List Char) :
    rest.length < (renderCookie c rest).length := by
  simp only [renderCookie, List.length_cons, List.length_append]
  omega

theorem renderSep_length_rest (f : α → List Char → List Char)
    (Hlen : ∀ (x : α) (rest : List Char), rest.length < (f x rest).length) :
    ∀ (xs : List α) (x : α) (rest : List Char),
      rest.length < (renderSep f (x :: xs) (']' :: rest)).length := by
  intro xs
  induction xs with
  | nil =>
    intro x rest
    rw [renderSep]
    have := Hlen x (']' :: rest)
    simp only [List.length_cons] at *
    omega
  | cons y ys ih =>
    intro x rest
    rw [renderSep]
    have h1 := Hlen x (',' :: renderSep f (y :: ys) (']' :: rest))
    have h2 := ih y rest
    simp only [List.length_cons] at *
    omega

theorem renderArray_length (f : α → List Char → List Char)
    (Hlen : ∀ (x : α) (rest : List Char), rest.length < (f x rest).length)
    (xs : List α) (rest : List Char) :
    rest.length < (renderArray f xs rest).length := by
  cases xs with
  | nil =>
    simp only [renderArray, List.length_cons]
    omega
  | cons x xs2 =>
    have h1 := renderSep_length_rest f Hlen xs2 x rest
    simp only [renderArray, List.length_cons] at *
    omega

theorem renderOrigin_length (o : OriginState) (rest : List Char) :
    rest.length < (renderOrigin o rest).length := by
  have h1 := renderArray_length renderEntry renderEntry_length o.localStorage ('}' :: rest)
  simp only [renderOrigin, List.length_cons, List.length_append] at *
  omega

/-- Round-trip for rendered entry arrays. -/
theorem parseArray_entries (xs : List LocalStorageEntry) (rest : List Char) :
    parseArray parseEntry (renderArray renderEntry xs rest) = some (xs, rest) :=
  parseArray_render parseEntry renderEntry parseEntry_render renderEntry_head
    renderEntry_length xs rest

theorem parseOrigin_render (o : OriginState) (rest : List Char) :
    parseOrigin (renderOrigin o rest) = some (o, rest) := by
  simp [renderOrigin, parseOrigin.eq_def, List.cons_append, List.append_assoc,
    parseKeyColon_render, parseString_render, parseArray_entries]

/-- Round-trip for rendered cookie arrays. -/
theorem parseArray_cookies (xs : List Cookie) (rest : List Char) :
    parseArray parseCookie (renderArray renderCookie xs rest) = some (xs, rest) :=
  parseArray_render parseCookie renderCookie parseCookie_render renderCookie_head
    renderCookie_length xs rest

/-- Round-trip for rendered origin arrays. -/
theorem parseArray_origins (xs : List OriginState) (rest : List Char) :
    parseArray parseOrigin (renderArray renderOrigin xs rest) = some (xs, rest) :=
  parseArray_render parseOrigin renderOrigin parseOrigin_render renderOrigin_head
    renderOrigin_length xs rest

/-- Serialization round-trip: parsing the Producer-side serialization of any
session snapshot returns exactly that snapshot. -/
theorem parseStorageState_stringify (s : StorageState) :
    parseStorageState (stringifyStorageState s) = some s := by
  simp [stringifyStorageState, parseStorageState.eq_def, List.cons_append,
    List.append_assoc, parseKeyColon_render, parseArray_cookies, parseArray_origins]

/-! ## The remote variable store and the two roles -/

/-- Modelled from the spec: the extracted token is "the token at a fixed
position", the first local-storage entry of the first origin
(origins[0].localStorage[0], whose value field is the token).  No code under
src/ performs this extraction — `retrieveStorageState.ts` returns the slot
value verbatim — so this definition follows the spec's words and serves as
the comparison point for the claims about extraction. -/
def extractToken (s : StorageState) : Option String :=
  match s.origins with
  | [] => none
  | o :: _ =>
    match o.localStorage with
    | [] => none
    | e :: _ => some e.value

/-- The body of a variable-store entry and of the GET response:
the key/value pair of the remote slot. -/
structure VarResponse where
  key : String
  value : String
deriving DecidableEq, Repr

/-- Modelled from the spec: the collaborator's variable store, a mapping from
request path (variables/NAME) to the stored key/value body.
`createChecklyContext.ts` is referenced by the source but absent from src/;
per the spec it abstracts HTTP requests against this store. -/
abbrev VarStore := String → Option VarResponse

/-- The store with no variables set. -/
def emptyStore : VarStore := fun _ => none

/-- Modelled from the spec: one HTTP request against the variable store API
(GET variables/KEY; PUT variables/KEY with body data key/value; the API also
supports deletion, which nothing in this repository issues). -/
inductive ApiRequest where
  | get (path : String)
  | put (path : String) (key value : String)
  | del (path : String)
deriving DecidableEq, Repr

/-- Is the request a GET? -/
def ApiRequest.isGet : ApiRequest → Bool
  | ApiRequest.get _ => true
  | _ => false

/-- Is the request a deletion? -/
def ApiRequest.isDel : ApiRequest → Bool
  | ApiRequest.del _ => true
  | _ => false

/-- Modelled from the spec: the store-side effect of one request.  PUT
variables/KEY overwrites the slot at that path with the request body (last
writer wins), GET leaves the store unchanged, deletion removes the slot. -/
def applyApiRequest (st : VarStore) : ApiRequest → VarStore
  | ApiRequest.get _ => st
  | ApiRequest.put path k v => fun p => if p = path then some { key := k, value := v } else st p
  | ApiRequest.del path => fun p => if p = path then none else st p

/-- Run a request sequence against the store, left to right. -/
def runRequests (st : VarStore) : List ApiRequest → VarStore
  | [] => st
  | r :: rs => runRequests (applyApiRequest st r) rs

/-- Modelled from the spec: the GET response body, parsed from JSON by
response.json() — the key/value envelope stored in the slot, or a failed
request when the slot is absent. -/
def getVar (st : VarStore) (path : String) : Option VarResponse :=
  st path

/-! ## State Producer (storageState.spec.ts, setup "login credentials")

After the interactive login and the page-load wait (external browser
collaborators, not modelled), the Producer captures the snapshot, serializes
it, and issues its one remote write. -/

/-- The remote requests issued by one Producer run on a captured snapshot
`storage`: exactly one PUT of variables/STORAGE_STATE whose body carries
key STORAGE_STATE and the JSON.stringify serialization as value
(the template literal around `stringifiedStorage` is the identity on a
string, so the stored value is the serialization itself). -/
def producerRequests (storage : StorageState) : List ApiRequest :=
  [ApiRequest.put "variables/STORAGE_STATE" "STORAGE_STATE" (stringifyStorageState storage)]

/-- The store after one Producer run on snapshot `storage`. -/
def producerRun (storage : StorageState) (st : VarStore) : VarStore :=
  runRequests st (producerRequests storage)

/-! ## State Consumer, retrieval side (retrieveStorageState.ts) -/

/-- Shallow embedding of `retrieveStorageState`: GET variables/STORAGE_STATE,
parse the HTTP response body as JSON (the key/value envelope, which the API
returns as valid JSON regardless of the slot value's content), take its
`value` field, and return it.  `none` models the unhandled failure when the
slot is absent.  Note the source applies no JSON.parse to the value and no
positional indexing into it: the `value` field is returned verbatim. -/
def retrieveStorageState (st : VarStore) : Option String :=
  match getVar st "variables/STORAGE_STATE" with
  | some responseData => some responseData.value
  | none => none

/-- The remote requests issued by one Consumer retrieval run:
a single GET of the slot. -/
def consumerRequests : List ApiRequest :=
  [ApiRequest.get "variables/STORAGE_STATE"]

/-! ## State Consumer, reinjection side (crud-article spec, test.beforeEach)

The beforeEach passes the value returned by `retrieveStorageState` as the
argument of page.evaluate and destructures it as an object with `name` and
`value` properties, then calls localStorage.setItem(name, value) and reloads.
The payload the source actually passes is the string returned by retrieval;
the model below captures the JavaScript semantics this relies on. -/

/-- The JavaScript value passed to page.evaluate: a string (what the source
actually passes), an object with name/value fields (what the destructuring
pattern expects), or undefined. -/
inductive JsValue where
  | str (s : String)
  | entryObj (name value : String)
  | undef
deriving DecidableEq, Repr

/-- JavaScript property access, as performed by the destructuring pattern:
a string has no `name` or `value` property, so both read as undefined;
an entry object yields its fields. -/
def jsProp : JsValue → String → JsValue
  | JsValue.str _, _ => JsValue.undef
  | JsValue.entryObj n v, p =>
    if p = "name" then JsValue.str n
    else if p = "value" then JsValue.str v
    else JsValue.undef
  | JsValue.undef, _ => JsValue.undef

/-- JavaScript string coercion, as localStorage.setItem applies to its two
arguments: undefined coerces to the string undefined. -/
def jsToString : JsValue → String
  | JsValue.str s => s
  | JsValue.entryObj _ _ => "[object Object]"
  | JsValue.undef => "undefined"

/-- The page's local storage for the application origin: key to value. -/
abbrev LocalStorageMap := String → Option String

/-- Local storage of a fresh session: empty. -/
def emptyLocalStorage : LocalStorageMap := fun _ => none

/-- localStorage.setItem. -/
def lsSetItem (m : LocalStorageMap) (k v : String) : LocalStorageMap :=
  fun k2 => if k2 = k then some v else m k2

/-- Shallow embedding of the beforeEach body: destructure the payload into
`name` and `value`, call localStorage.setItem(name, value), and reload
(the reload preserves local storage, so the map after the subsequent page
load is the map after the setItem). -/
def consumerReinject (payload : JsValue) (ls : LocalStorageMap) : LocalStorageMap :=
  lsSetItem ls (jsToString (jsProp payload "name")) (jsToString (jsProp payload "value"))

/-- The Consumer end-to-end: retrieve the slot value (a string, wrapped as
the JavaScript value the source passes to page.evaluate) and reinject it
into the fresh session's local storage; fails when retrieval fails. -/
def consumerRun (st : VarStore) (ls : LocalStorageMap) : Option LocalStorageMap :=
  match retrieveStorageState st with
  | some v => some (consumerReinject (JsValue.str v) ls)
  | none => none

/-! ## Concrete inputs used to evaluate the code -/

/-- The snapshot of the spec's extraction example: first origin's
localStorage is the single entry name jwt / value T1. -/
def snapshotJwtT1 : StorageState :=
  { cookies := [],
    origins := [{ origin := "https://example.test",
                  localStorage := [{ name := "jwt", value := "T1" }] }] }

/-- The snapshot of the end-to-end scenario: token abc123 under key jwt. -/
def snapshotJwtAbc : StorageState :=
  { cookies := [],
    origins := [{ origin := "https://example.test",
                  localStorage := [{ name := "jwt", value := "abc123" }] }] }

/-- A snapshot whose origins array is empty. -/
def snapshotNoOrigins : StorageState :=
  { cookies := [], origins := [] }

/-- A slot value that is not valid JSON. -/
def nonJsonValue : String := "###not-json###"

/-! ## Claims -/

/-- C1: the claim says `retrieveStorageState` parses the slot value as a
structured snapshot and returns the token at origins[0].localStorage[0]
(the string T1 for the example snapshot).  Evaluating the code at that
snapshot: retrieval returns the entire serialized snapshot string verbatim,
which is not T1; the extraction the claim (and the repository README)
describe would have returned T1. -/
theorem c1_retrieval_returns_raw_slot_value_not_token :
    retrieveStorageState (producerRun snapshotJwtT1 emptyStore)
        = some (stringifyStorageState snapshotJwtT1) ∧
    stringifyStorageState snapshotJwtT1 ≠ "T1" ∧
    extractToken snapshotJwtT1 = some "T1" :=
  ⟨rfl, by decide, rfl⟩

/-- C2: the claim says the end-to-end pipeline exposes abc123 in local
storage under its original key (jwt).  Evaluating the code: the beforeEach
destructures the retrieved string, whose name and value properties are
undefined, so local storage ends with the key undefined mapped to the string
undefined, and nothing under jwt. -/
theorem c2_end_to_end_stores_undefined_not_token :
    ∃ ls, consumerRun (producerRun snapshotJwtAbc emptyStore) emptyLocalStorage = some ls ∧
      ls "jwt" = none ∧ ls "undefined" = some "undefined" :=
  ⟨_, rfl, rfl, rfl⟩

/-- C3: the Producer serializes the captured snapshot with JSON.stringify and
issues exactly one remote write, a PUT to variables/STORAGE_STATE whose body
carries key STORAGE_STATE and the serialized snapshot as value; afterwards
the slot holds exactly that serialization. -/
theorem c3_producer_single_put_of_serialized_snapshot
    (storage : StorageState) (st : VarStore) :
    producerRequests storage =
      [ApiRequest.put "variables/STORAGE_STATE" "STORAGE_STATE"
        (stringifyStorageState storage)] ∧
    (producerRequests storage).length = 1 ∧
    getVar (producerRun storage st) "variables/STORAGE_STATE"
      = some { key := "STORAGE_STATE", value := stringifyStorageState storage } := by
  refine ⟨rfl, rfl, ?_⟩
  simp [producerRun, producerRequests, runRequests, applyApiRequest, getVar]

/-- C4: round-trip — serializing a snapshot as the Producer does and
immediately deserializing the result yields a structure whose extracted
token equals the token of the original snapshot. -/
theorem c4_serialize_deserialize_preserves_token (s : StorageState) :
    ∃ s2, parseStorageState (stringifyStorageState s) = some s2 ∧
      extractToken s2 = extractToken s :=
  ⟨s, parseStorageState_stringify s, rfl⟩

/-- C5: the claim says retrieval fails when the slot value is not valid
JSON.  Evaluating the code at a non-JSON slot value: retrieval succeeds and
returns the unparsed value verbatim (the code parses only the HTTP response
envelope, never the slot value), although the value does not parse as a
snapshot. -/
theorem c5_retrieval_succeeds_on_non_json_slot_value :
    retrieveStorageState
        (runRequests emptyStore
          [ApiRequest.put "variables/STORAGE_STATE" "STORAGE_STATE" nonJsonValue])
      = some nonJsonValue ∧
    parseStorageState nonJsonValue = none :=
  ⟨rfl, rfl⟩

/-- C6: the claim says token extraction fails when the stored snapshot has
an empty origins array.  Evaluating the code: no extraction is performed at
all — retrieval succeeds and returns the serialized empty-origins snapshot
verbatim, raising no error, even though the extraction position is absent. -/
theorem c6_retrieval_succeeds_on_empty_origins :
    retrieveStorageState (producerRun snapshotNoOrigins emptyStore)
        = some (stringifyStorageState snapshotNoOrigins) ∧
    extractToken snapshotNoOrigins = none :=
  ⟨rfl, rfl⟩

/-- C7: last-write-wins — after two sequential Producer runs the store is
exactly what the second run alone would have produced, and the slot holds
only the second serialization; no merging occurs. -/
theorem c7_second_producer_write_overwrites_first
    (s1 s2 : StorageState) (st : VarStore) :
    producerRun s2 (producerRun s1 st) = producerRun s2 st ∧
    getVar (producerRun s2 (producerRun s1 st)) "variables/STORAGE_STATE"
      = some { key := "STORAGE_STATE", value := stringifyStorageState s2 } := by
  constructor
  · funext p
    by_cases h : p = "variables/STORAGE_STATE" <;>
      simp [producerRun, producerRequests, runRequests, applyApiRequest, h]
  · simp [producerRun, producerRequests, runRequests, applyApiRequest, getVar]

/-- C8: frame condition — a Consumer retrieval run leaves the store
unchanged and issues only a GET; neither role ever issues a deletion, and
after a Producer run the slot exists. -/
theorem c8_consumer_read_only_and_no_deletion :
    (∀ st : VarStore, runRequests st consumerRequests = st) ∧
    consumerRequests.all ApiRequest.isGet = true ∧
    (∀ storage : StorageState,
      (producerRequests storage).all (fun r => ! r.isDel) = true) ∧
    consumerRequests.all (fun r => ! r.isDel) = true ∧
    (∀ (storage : StorageState) (st : VarStore),
      (getVar (producerRun storage st) "variables/STORAGE_STATE").isSome = true) :=
  ⟨fun _ => rfl, rfl, fun _ => rfl, rfl, fun _ _ => rfl⟩

/-- C9: store-then-retrieve is the identity on the stored string — for every
string v, a write of v into the slot followed by a Consumer retrieval
returns exactly v (no JSON.parse of the value, no positional indexing). -/
theorem c9_store_then_retrieve_identity (v : String) (st : VarStore) :
    retrieveStorageState
        (runRequests st [ApiRequest.put "variables/STORAGE_STATE" "STORAGE_STATE" v])
      = some v :=
  rfl

/-- C10: invariant — after every Producer run the slot value is the
JSON.stringify serialization of the captured snapshot, hence valid JSON
whose parse yields exactly that snapshot. -/
theorem c10_slot_always_holds_parseable_serialization
    (storage : StorageState) (st : VarStore) :
    getVar (producerRun storage st) "variables/STORAGE_STATE"
      = some { key := "STORAGE_STATE", value := stringifyStorageState storage } ∧
    parseStorageState (stringifyStorageState storage) = some storage := by
  refine ⟨?_, parseStorageState_stringify storage⟩
  simp [producerRun, producerRequests, runRequests, applyApiRequest, getVar]

end ChecklyStorageState
